import Mathlib

/-!
Verification of the RemoteDesktop session broker / streaming / auth core.

The definitions below are a shallow embedding of the JavaScript sources:
  * `src/auth.js`      — PIN lifecycle, brute-force lockout, session tokens
  * the WebSocket broker (register-host / register-viewer / signaling relay)
  * `src/screenshare.js` (`WebSocketServer`) — frame-streaming state machine

Conventions of the embedding:
  * JavaScript `Map`s become insertion-ordered association lists
    (`Map.set` replaces in place, `Map.delete` removes the entry).
  * JavaScript `Set`s become duplicate-free lists in insertion order
    (`Set.add` appends when absent, `Set.delete` removes).
  * `Date.now()` becomes an explicit `now : Nat` argument (milliseconds).
  * `Math.random()`-derived values become explicit arguments.
  * SHA-256 is modelled as an injective tagging function: the proofs use
    only that distinct inputs hash to distinct outputs (the standard
    collision-freeness idealisation of a cryptographic hash).
-/

namespace RemoteDesktop

/-! ### Association-list maps (JavaScript `Map` semantics) -/

/-- JS `Map.get k`: the value stored at key `k`, if any. -/
def getKey {α : Type} : List (String × α) → String → Option α
  | [], _ => none
  | (k', v) :: rest, k => if k' = k then some v else getKey rest k

/-- JS `Map.set k v`: replace in place when the key exists, else append. -/
def setKey {α : Type} : List (String × α) → String → α → List (String × α)
  | [], k, v => [(k, v)]
  | (k', v') :: rest, k, v =>
      if k' = k then (k, v) :: rest else (k', v') :: setKey rest k v

/-- JS `Map.delete k` (the resulting map). -/
def delKey {α : Type} : List (String × α) → String → List (String × α)
  | [], _ => []
  | (k', v) :: rest, k => if k' = k then rest else (k', v) :: delKey rest k

/-- JS `Map.has k`. -/
def hasKey {α : Type} (m : List (String × α)) (k : String) : Bool :=
  (getKey m k).isSome

/-! ### `src/auth.js` — configuration and state -/

def PIN_LENGTH : Nat := 6
def MAX_ATTEMPTS : Nat := 5
/-- Five minutes, in milliseconds. -/
def LOCKOUT_DURATION : Nat := 5 * 60 * 1000
/-- Twenty-four hours, in milliseconds. -/
def SESSION_DURATION : Nat := 24 * 60 * 60 * 1000

/-- One entry of `attemptTracker`: `{ count, lockedUntil }`. -/
structure TrackEntry where
  count : Nat
  lockedUntil : Option Nat
deriving DecidableEq, Repr

/-- One entry of `sessions`: `{ createdAt, ip }`. -/
structure SessionEntry where
  createdAt : Nat
  ip : String
deriving DecidableEq, Repr

/-- The `sessions` map: token → `{ createdAt, ip }`. -/
abbrev Sessions := List (String × SessionEntry)

/-- The PIN/lockout part of the auth module's state
(`currentPin`, `pinHash`, `attemptTracker`). -/
structure AuthState where
  currentPin : Option String
  pinHash : Option String
  tracker : List (String × TrackEntry)
deriving DecidableEq, Repr

/-- Module state at load time: no PIN generated yet, empty tracker. -/
def AuthState.init : AuthState := ⟨none, none, []⟩

/-- Function `hashPin`: SHA-256 modelled as an injective tagging function. -/
def hashPin (pin : String) : String := "sha256:" ++ pin

/-- Operation `generatePin()`; the `Math.random()` draw is the explicit argument `r`,
so the produced PIN is `String(100000 + r % 900000)`, a 6-digit value. -/
def generatePin (st : AuthState) (r : Nat) : AuthState × String :=
  let pin := toString (100000 + r % 900000)
  ({ st with currentPin := some pin, pinHash := some (hashPin pin) }, pin)

/-- Operation `getCurrentPin()`. -/
def getCurrentPin (st : AuthState) : Option String := st.currentPin

/-- Result of `verifyPin`, one constructor per distinct returned object. -/
inductive VerifyResult where
  /-- Return value `{ success: true }`. -/
  | success
  /-- Return value with `locked: true` ("已锁定，请 N 秒后重试") —
  the address is currently locked out; carries the remaining seconds. -/
  | lockedRemaining (remainingSeconds : Nat)
  /-- Return value with `locked: true` ("错误次数过多，已锁定 5 分钟") —
  this failure reached the threshold and started a lockout. -/
  | lockedNow
  /-- Return value carrying `remainingAttempts` ("PIN 码错误"). -/
  | invalidPin (remainingAttempts : Nat)
deriving DecidableEq, Repr

/-- Operation `verifyPin(inputPin, clientIP)` at time `now`, returning the updated
module state together with the result object. -/
def verifyPin (st : AuthState) (inputPin clientIP : String) (now : Nat) :
    AuthState × VerifyResult :=
  let tracker := getKey st.tracker clientIP
  -- 检查是否被锁定
  match tracker with
  | some t =>
    match t.lockedUntil with
    | some lu =>
      if now < lu then
        -- Math.ceil((lockedUntil - Date.now()) / 1000)
        (st, .lockedRemaining ((lu - now + 999) / 1000))
      else
        verifyPinBody st inputPin clientIP now tracker
    | none => verifyPinBody st inputPin clientIP now tracker
  | none => verifyPinBody st inputPin clientIP now tracker
where
  /-- The part of `verifyPin` after the lockout check. -/
  verifyPinBody (st : AuthState) (inputPin clientIP : String) (now : Nat)
      (tracker : Option TrackEntry) : AuthState × VerifyResult :=
    if some (hashPin inputPin) = st.pinHash then
      ({ st with tracker := delKey st.tracker clientIP }, .success)
    else
      let attempts := (match tracker with | some t => t.count | none => 0) + 1
      if attempts ≥ MAX_ATTEMPTS then
        let entry : TrackEntry := ⟨attempts, some (now + LOCKOUT_DURATION)⟩
        ({ st with tracker := setKey st.tracker clientIP entry }, .lockedNow)
      else
        ({ st with tracker := setKey st.tracker clientIP ⟨attempts, none⟩ },
         .invalidPin (MAX_ATTEMPTS - attempts))

/-- Operation `createSession(clientIP)`; the random token is the explicit argument. -/
def createSession (sessions : Sessions) (token clientIP : String) (now : Nat) :
    Sessions × String :=
  (setKey sessions token ⟨now, clientIP⟩, token)

/-- Operation `validateSession(token)` at time `now`: an expired entry is deleted on
lookup.  The `if (!token)` falsy guard is the `token = ""` test (the `null`
case is handled by callers passing no token at all). -/
def validateSession (sessions : Sessions) (token : String) (now : Nat) :
    Sessions × Bool :=
  if token = "" then (sessions, false)
  else
    match getKey sessions token with
    | none => (sessions, false)
    | some s =>
      if now - s.createdAt > SESSION_DURATION then
        (delKey sessions token, false)
      else
        (sessions, true)

/-- Operation `removeSession(token)`: `Map.delete`, returning whether it was present. -/
def removeSession (sessions : Sessions) (token : String) : Sessions × Bool :=
  (delKey sessions token, hasKey sessions token)

/-- Operation `cleanupSessions()` (the periodic sweep). -/
def cleanupSessions (sessions : Sessions) (now : Nat) : Sessions :=
  sessions.filter (fun e => !(now - e.2.createdAt > SESSION_DURATION))

/-! ### The WebSocket broker (WebRTC signaling relay)

Connections are identified by opaque numeric identifiers (`Conn := Nat`),
standing for the `ws` socket objects.  `viewerConnections` is a JS `Set`
kept in insertion order; `hostConnection` is a nullable reference.  A
connection identifier is in `conns` exactly while its socket is open and
its message/close handlers are installed (i.e. it passed the auth gate
and has not closed yet); `broadcast`'s `readyState === OPEN` test is
membership in `conns`. -/

abbrev Conn := Nat

/-- Predicate `isLocalIP(ip)`. -/
def isLocalIP (ip : String) : Bool :=
  ip = "127.0.0.1" || ip = "::1" || ip = "::ffff:127.0.0.1"

/-- Parsed inbound JSON messages (`handleMessage`'s cases; the seven
control-command types are collapsed into `control`, which the broker
hands to the input-injection collaborator without any routing). -/
inductive InMsg where
  | registerHost
  | registerViewer
  | offer (sdp : String)
  | answer (sdp : String) (viewerId : Int)
  | iceCandidate (candidate : String) (viewerId : Int)
  | control
deriving DecidableEq, Repr

/-- Outbound JSON messages produced by the broker. -/
inductive OutMsg where
  /-- Message `{ type: 'registered', role, hostReady? }`. -/
  | registered (role : String) (hostReady : Option Bool)
  | hostReady
  | hostDisconnected
  /-- Message `{ type: 'notification', level, message }` (text elided). -/
  | notification (level : String)
  | offer (sdp : String) (viewerId : Int)
  | answer (sdp : String)
  | iceCandidate (candidate : String) (viewerId : Option Int)
deriving DecidableEq, Repr

/-- Observable effects of one broker step. -/
inductive Out where
  /-- Effect `target.send(JSON.stringify(m))`. -/
  | send (dst : Conn) (m : OutMsg)
  /-- Effect `ws.close(code, reason)`. -/
  | wsClose (c : Conn) (code : Nat) (reason : String)
deriving DecidableEq, Repr

/-- Broker state: `hostConnection`, `viewerConnections` (insertion-ordered
set), the set of open handled sockets, and the shared `sessions` map used
by the connection auth gate. -/
structure SrvState where
  host : Option Conn
  viewers : List Conn
  conns : List Conn
  sessions : Sessions
deriving DecidableEq, Repr

def SrvState.init : SrvState := ⟨none, [], [], []⟩

/-- JS `Set.add`: append when absent. -/
def addConn (l : List Conn) (c : Conn) : List Conn :=
  if c ∈ l then l else l ++ [c]

/-- Function `getViewerId(ws)`: the sender's position in the viewer set's iteration
order, `-1` when absent. -/
def getViewerIdAux : List Conn → Conn → Int → Int
  | [], _, _ => -1
  | v :: rest, ws, id => if v = ws then id else getViewerIdAux rest ws (id + 1)

def getViewerId (viewers : List Conn) (ws : Conn) : Int :=
  getViewerIdAux viewers ws 0

/-- Function `getViewerById(id)`: the viewer at position `id` of the iteration
order, if any. -/
def getViewerByIdAux : List Conn → Int → Int → Option Conn
  | [], _, _ => none
  | v :: rest, id, i => if i = id then some v else getViewerByIdAux rest id (i + 1)

def getViewerById (viewers : List Conn) (id : Int) : Option Conn :=
  getViewerByIdAux viewers id 0

/-- Function `broadcast(data)`: send to every viewer whose socket is open. -/
def broadcastMsg (viewers conns : List Conn) (m : OutMsg) : List Out :=
  (viewers.filter (fun v => v ∈ conns)).map (fun v => .send v m)

/-- Function `handleMessage(ws, message)` — the switch in the main server file. -/
def handleMessage (s : SrvState) (ws : Conn) (m : InMsg) : SrvState × List Out :=
  match m with
  | .registerHost =>
      ({ s with host := some ws },
       .send ws (.registered ("host") none) :: broadcastMsg s.viewers s.conns .hostReady)
  | .registerViewer =>
      ({ s with viewers := addConn s.viewers ws },
       .send ws (.registered ("viewer") (some s.host.isSome)) ::
         (match s.host with
          | some h => [Out.send h (.notification ("info"))]
          | none => []))
  | .offer sdp =>
      (s, match s.host with
          | some h => [Out.send h (.offer sdp (getViewerId s.viewers ws))]
          | none => [])
  | .answer sdp viewerId =>
      (s, match getViewerById s.viewers viewerId with
          | some v => [Out.send v (.answer sdp)]
          | none => [])
  | .iceCandidate candidate viewerId =>
      if s.host = some ws then
        -- Host -> Viewer
        (s, match getViewerById s.viewers viewerId with
            | some tv => [Out.send tv (.iceCandidate candidate none)]
            | none => [])
      else
        -- Viewer -> Host
        (s, match s.host with
            | some h =>
                [Out.send h (.iceCandidate candidate (some (getViewerId s.viewers ws)))]
            | none => [])
  | .control => (s, [])

/-- External events driving the broker: an inbound connection attempt
(carrying the peer address, an optional `token` query parameter and the
current time), a parsed message from a socket, and a transport close. -/
inductive SEvent where
  | incoming (c : Conn) (ip : String) (token : Option String) (now : Nat)
  | rawMsg (c : Conn) (m : InMsg)
  | close (c : Conn)
deriving DecidableEq, Repr

/-- One broker step.

* `incoming`: the `wss.on('connection')` gate — local sockets are exempt;
  a remote socket must present a token that `validateSession` accepts, or
  it is closed with `4001 'Unauthorized'` and no handlers are installed.
* `rawMsg`: handlers exist only for sockets that passed the gate.
* `close`: the `ws.on('close')` handler; the closing socket itself is no
  longer open while the handler runs. -/
def serverStep (s : SrvState) (e : SEvent) : SrvState × List Out :=
  match e with
  | .incoming c ip token now =>
      if isLocalIP ip then
        ({ s with conns := addConn s.conns c }, [])
      else
        match token with
        | none => (s, [.wsClose c 4001 "Unauthorized"])
        | some t =>
            let (sessions', ok) := validateSession s.sessions t now
            if ok then
              ({ s with conns := addConn s.conns c, sessions := sessions' }, [])
            else
              ({ s with sessions := sessions' }, [.wsClose c 4001 "Unauthorized"])
  | .rawMsg c m =>
      if c ∈ s.conns then handleMessage s c m else (s, [])
  | .close c =>
      if c ∈ s.conns then
        let conns' := s.conns.erase c
        if s.host = some c then
          ({ s with host := none, viewers := s.viewers.erase c, conns := conns' },
           broadcastMsg s.viewers conns' .hostDisconnected)
        else if c ∈ s.viewers then
          ({ s with viewers := s.viewers.erase c, conns := conns' },
           match s.host with
           | some h => [Out.send h (.notification ("warning"))]
           | none => [])
        else
          ({ s with viewers := s.viewers.erase c, conns := conns' }, [])
      else (s, [])

/-- Run a sequence of events from a state (outputs discarded). -/
def runT (s : SrvState) : List SEvent → SrvState
  | [] => s
  | e :: t => runT (serverStep s e).1 t

/-! ### `src/screenshare.js` — `WebSocketServer` frame streaming

`Idle` is `isStreaming = false`, `Streaming` is `isStreaming = true`.
`captureCount` counts invocations of the capture collaborator
(`captureScreenBuffer`).  A `tick` event is one run of the `sendFrame`
body; `connect` is an authorized client connection (which calls
`startStreaming`, whose synchronous tail runs `sendFrame` once);
`close` is the client-close handler. -/

structure StreamState where
  clients : List Conn
  isStreaming : Bool
  captureCount : Nat
deriving DecidableEq, Repr

def StreamState.init : StreamState := ⟨[], false, 0⟩

inductive SSEvent where
  | connect (c : Conn)
  | close (c : Conn)
  | tick
deriving DecidableEq, Repr

/-- The `sendFrame` body: bail out when not streaming or no clients are
connected (no capture), otherwise invoke the capture collaborator. -/
def tickStep (s : StreamState) : StreamState :=
  if !s.isStreaming || s.clients = [] then s
  else { s with captureCount := s.captureCount + 1 }

def ssStep (s : StreamState) : SSEvent → StreamState
  | .connect c =>
      let s1 := { s with clients := addConn s.clients c }
      if s1.isStreaming then s1
      else tickStep { s1 with isStreaming := true }
  | .close c =>
      let s1 := { s with clients := s.clients.erase c }
      if s1.clients = [] then { s1 with isStreaming := false } else s1
  | .tick => tickStep s

def runSS (s : StreamState) : List SSEvent → StreamState
  | [] => s
  | e :: t => runSS (ssStep s e) t

/-- Lockout test of `verifyPin`'s first guard:
`tracker && tracker.lockedUntil && Date.now() < tracker.lockedUntil`. -/
def isLockedOut (st : AuthState) (ip : String) (now : Nat) : Bool :=
  match getKey st.tracker ip with
  | some t =>
    match t.lockedUntil with
    | some lu => decide (now < lu)
    | none => false
  | none => false

/-- Iterated failed verification: `n` successive `verifyPin` calls with the
same (wrong) candidate `w` from address `ip` at time `now`. -/
def failCalls (st : AuthState) (w ip : String) (now : Nat) : Nat → AuthState
  | 0 => st
  | n + 1 => (verifyPin (failCalls st w ip now n) w ip now).1

/-! ### Helper lemmas -/

theorem hashPin_injective {a b : String} (h : hashPin a = hashPin b) : a = b := by
  have h2 : (hashPin a).data = (hashPin b).data := by rw [h]
  simp [hashPin, String.data_append] at h2
  exact String.ext h2

theorem getKey_setKey_self {α : Type} (m : List (String × α)) (k : String) (v : α) :
    getKey (setKey m k v) k = some v := by
  induction m with
  | nil => simp [setKey, getKey]
  | cons e rest ih =>
    obtain ⟨k', v'⟩ := e
    by_cases h : k' = k
    · simp [setKey, getKey, h]
    · simp [setKey, getKey, h, ih]

theorem getKey_eq_none_of_not_mem {α : Type} (m : List (String × α)) (k : String)
    (h : k ∉ m.map Prod.fst) : getKey m k = none := by
  induction m with
  | nil => rfl
  | cons e rest ih =>
    obtain ⟨k', v'⟩ := e
    simp at h
    have hne : k' ≠ k := fun hh => h.1 hh.symm
    simp [getKey, hne, ih (by simpa using h.2)]

theorem getKey_delKey_self {α : Type} (m : List (String × α)) (k : String)
    (h : (m.map Prod.fst).Nodup) : getKey (delKey m k) k = none := by
  induction m with
  | nil => rfl
  | cons e rest ih =>
    obtain ⟨k', v'⟩ := e
    simp at h
    by_cases hk : k' = k
    · subst hk
      simp [delKey]
      exact getKey_eq_none_of_not_mem rest k' (by simpa using h.1)
    · simp [delKey, getKey, hk, ih h.2]

theorem delKey_of_getKey_none {α : Type} (m : List (String × α)) (k : String)
    (h : getKey m k = none) : delKey m k = m := by
  induction m with
  | nil => rfl
  | cons e rest ih =>
    obtain ⟨k', v'⟩ := e
    by_cases hk : k' = k
    · simp [getKey, hk] at h
    · simp [getKey, hk] at h
      simp [delKey, hk, ih h]

/-- When the address is not locked out, `verifyPin` runs its post-guard body. -/
theorem verifyPin_not_locked (st : AuthState) (p ip : String) (now : Nat)
    (hlock : isLockedOut st ip now = false) :
    verifyPin st p ip now =
      verifyPin.verifyPinBody st p ip now (getKey st.tracker ip) := by
  unfold verifyPin
  cases htr : getKey st.tracker ip with
  | none => rfl
  | some t =>
    cases hlu : t.lockedUntil with
    | none => simp [hlu]
    | some lu =>
      have hnl : ¬ now < lu := by
        simp [isLockedOut, htr, hlu] at hlock
        omega
      simp [hlu, hnl]

/-- The locked-out branch of `verifyPin`: a `Locked` result carrying
`Math.ceil((lockedUntil − now) / 1000)` seconds, with no state change. -/
theorem verifyPin_locked (st : AuthState) (p ip : String) (now lu : Nat)
    (t : TrackEntry) (htr : getKey st.tracker ip = some t)
    (hlu : t.lockedUntil = some lu) (hnow : now < lu) :
    verifyPin st p ip now = (st, .lockedRemaining ((lu - now + 999) / 1000)) := by
  unfold verifyPin
  rw [htr]
  simp [hlu, hnow]

/-- Shape of `verifyPinBody` on a hash mismatch. -/
theorem verifyPinBody_wrong (st : AuthState) (w ip : String) (now : Nat)
    (trk : Option TrackEntry) (hw : some (hashPin w) ≠ st.pinHash) :
    verifyPin.verifyPinBody st w ip now trk =
      (let attempts := (match trk with | some t => t.count | none => 0) + 1
       if attempts ≥ MAX_ATTEMPTS then
         ({ st with tracker :=
              setKey st.tracker ip ⟨attempts, some (now + LOCKOUT_DURATION)⟩ },
          .lockedNow)
       else
         ({ st with tracker := setKey st.tracker ip ⟨attempts, none⟩ },
          .invalidPin (MAX_ATTEMPTS - attempts))) := by
  simp only [verifyPin.verifyPinBody, if_neg hw]

/-- Success of `verifyPin` is exactly a correct candidate, whenever the
address is not locked out and `pin` is the most recently generated PIN
(i.e. the stored hash is `pin`'s hash). -/
theorem verifyPin_success_iff (st : AuthState) (pin p ip : String) (now : Nat)
    (hpin : st.pinHash = some (hashPin pin))
    (hlock : isLockedOut st ip now = false) :
    ((verifyPin st p ip now).2 = .success ↔ p = pin) := by
  rw [verifyPin_not_locked st p ip now hlock]
  by_cases hp : p = pin
  · subst hp
    simp [verifyPin.verifyPinBody, hpin]
  · have hw : some (hashPin p) ≠ st.pinHash := by
      rw [hpin]
      intro hc
      exact hp (hashPin_injective (Option.some.inj hc))
    rw [verifyPinBody_wrong st p ip now _ hw]
    simp only []
    split <;> simp [hp]

/-! ### Claims about `src/auth.js` -/

/-- A wrong 6-digit candidate used in counterexamples and witnesses. -/
def wrongPin : String := "000000"

/-- A remote source address used in counterexamples and witnesses. -/
def attackerIP : String := "203.0.113.9"

/-- C2 — counterexample.  The claim "`verifyPin(p, addr)` succeeds if and
only if `p` equals the PIN produced by the most recent `generatePin()`
call" fails on the code: after five failed attempts the address is locked
out, and `verifyPin` then rejects even the current PIN (here the freshly
generated PIN `"100000"`), so the right-to-left direction of the claimed
equivalence is false in this reachable state. -/
theorem c2_counterexample :
    (getCurrentPin (failCalls (generatePin AuthState.init 0).1 wrongPin attackerIP 0 5)
       = some ((generatePin AuthState.init 0).2))
    ∧ (verifyPin (failCalls (generatePin AuthState.init 0).1 wrongPin attackerIP 0 5)
         ((generatePin AuthState.init 0).2) attackerIP 0).2 ≠ .success := by
  decide

/-- C2 — amended.  Provided the source address is not currently locked
out, `verifyPin(p, addr)` succeeds iff `p` equals the most recently
generated PIN; and a further `generatePin()` whose fresh PIN differs from
the previous one makes the previous PIN fail verification immediately.
(`pinHash = some (hashPin pin)` says `pin` is the most recently generated
PIN; the first conjunct shows `generatePin` establishes exactly that.) -/
theorem c2_amended :
    (∀ (st : AuthState) (r : Nat),
       (generatePin st r).1.pinHash = some (hashPin (generatePin st r).2))
  ∧ (∀ (st : AuthState) (pin p ip : String) (now : Nat),
       st.pinHash = some (hashPin pin) →
       isLockedOut st ip now = false →
       ((verifyPin st p ip now).2 = .success ↔ p = pin))
  ∧ (∀ (st : AuthState) (r : Nat) (oldPin ip : String) (now : Nat),
       (generatePin st r).2 ≠ oldPin →
       isLockedOut (generatePin st r).1 ip now = false →
       (verifyPin (generatePin st r).1 oldPin ip now).2 ≠ .success) := by
  refine ⟨fun st r => rfl, verifyPin_success_iff, ?_⟩
  intro st r oldPin ip now hne hlock hsucc
  exact hne
    ((verifyPin_success_iff (generatePin st r).1 (generatePin st r).2 oldPin ip now
        rfl hlock).mp hsucc).symm

/-- C2 — witness for the amended theorem at concrete inputs. -/
theorem c2_amended_witness :
    ((verifyPin (generatePin AuthState.init 7).1 "100007" attackerIP 3).2
        = .success ↔ ("100007" : String) = "100007")
    ∧ (verifyPin (generatePin (generatePin AuthState.init 7).1 8).1
         "100007" attackerIP 3).2 ≠ .success :=
  ⟨c2_amended.2.1 (generatePin AuthState.init 7).1 "100007" "100007" attackerIP 3
      (by decide) (by decide),
   c2_amended.2.2 (generatePin AuthState.init 7).1 8 "100007" attackerIP 3
      (by decide) (by decide)⟩

/-- C3 — after 5 consecutive failed `verifyPin` calls from one address the
6th call is rejected as locked even with the correct PIN (first conjunct,
with the full 300 remaining seconds); while locked out, `verifyPin` fails
with the remaining lockout seconds and leaves the state — in particular
the failure count — unchanged (second conjunct); once the lockout expiry
has passed, the correct PIN succeeds (third conjunct). -/
theorem c3_lockout :
    (∀ (st : AuthState) (pin w ip : String) (now : Nat),
       st.pinHash = some (hashPin pin) → w ≠ pin →
       getKey st.tracker ip = none →
       (verifyPin (failCalls st w ip now 5) pin ip now).2 =
         .lockedRemaining (LOCKOUT_DURATION / 1000))
  ∧ (∀ (st : AuthState) (p ip : String) (now lu : Nat) (t : TrackEntry),
       getKey st.tracker ip = some t → t.lockedUntil = some lu → now < lu →
       verifyPin st p ip now = (st, .lockedRemaining ((lu - now + 999) / 1000)))
  ∧ (∀ (st : AuthState) (pin ip : String) (now lu : Nat) (t : TrackEntry),
       st.pinHash = some (hashPin pin) →
       getKey st.tracker ip = some t → t.lockedUntil = some lu → lu ≤ now →
       (verifyPin st pin ip now).2 = .success) := by
  refine ⟨?_, verifyPin_locked, ?_⟩
  · intro st pin w ip now hpin hw htr
    have hwh : ∀ s : AuthState, s.pinHash = st.pinHash →
        some (hashPin w) ≠ s.pinHash := by
      intro s hs hc
      rw [hs, hpin] at hc
      exact hw (hashPin_injective (Option.some.inj hc))
    -- one failing call, starting from a clean or counting (unlocked) entry
    have step : ∀ (s : AuthState) (k : Nat), s.pinHash = st.pinHash →
        (getKey s.tracker ip = none ∧ k = 0 ∨ getKey s.tracker ip = some ⟨k, none⟩) →
        ((verifyPin s w ip now).1.pinHash = st.pinHash
         ∧ getKey (verifyPin s w ip now).1.tracker ip =
             some ⟨k + 1, if k + 1 ≥ MAX_ATTEMPTS
               then some (now + LOCKOUT_DURATION) else none⟩) := by
      intro s k hs hk
      have hlock : isLockedOut s ip now = false := by
        rcases hk with ⟨hk0, _⟩ | hk1
        · simp [isLockedOut, hk0]
        · simp [isLockedOut, hk1]
      rw [verifyPin_not_locked _ _ _ _ hlock,
        verifyPinBody_wrong s w ip now _ (hwh s hs)]
      rcases hk with ⟨hk0, hk0'⟩ | hk1
      · subst hk0'
        rw [hk0]
        by_cases hge : 1 ≥ MAX_ATTEMPTS
        · simp [hge, hs, getKey_setKey_self]
        · simp [hge, hs, getKey_setKey_self]
      · rw [hk1]
        by_cases hge : k + 1 ≥ MAX_ATTEMPTS
        · simp [hge, hs, getKey_setKey_self]
        · simp [hge, hs, getKey_setKey_self]
    have chain : ∀ k : Nat, k + 1 ≤ 5 →
        ((failCalls st w ip now (k + 1)).pinHash = st.pinHash
         ∧ getKey (failCalls st w ip now (k + 1)).tracker ip =
             some ⟨k + 1, if k + 1 ≥ MAX_ATTEMPTS
               then some (now + LOCKOUT_DURATION) else none⟩) := by
      intro k
      induction k with
      | zero =>
        intro _
        exact step st 0 rfl (Or.inl ⟨htr, rfl⟩)
      | succ n ih =>
        intro hle
        have hn := ih (by omega)
        have hlt : ¬ (n + 1 ≥ MAX_ATTEMPTS) := by
          simp [MAX_ATTEMPTS]
          omega
        rw [if_neg hlt] at hn
        exact step (failCalls st w ip now (n + 1)) (n + 1) hn.1 (Or.inr hn.2)
    have h5 := chain 4 (by omega)
    rw [if_pos (by simp [MAX_ATTEMPTS])] at h5
    rw [verifyPin_locked (failCalls st w ip now 5) pin ip now
          (now + LOCKOUT_DURATION) ⟨5, some (now + LOCKOUT_DURATION)⟩ h5.2 rfl
          (by simp [LOCKOUT_DURATION])]
    have harith : now + LOCKOUT_DURATION - now = LOCKOUT_DURATION := by omega
    rw [harith]
    norm_num [LOCKOUT_DURATION]
  · intro st pin ip now lu t hpin htr hlu hexp
    have hlock : isLockedOut st ip now = false := by
      simp [isLockedOut, htr, hlu]
      omega
    exact (verifyPin_success_iff st pin pin ip now hpin hlock).mpr rfl

/-- C3 — witness: the concrete 5-failures-then-locked scenario, and a
concrete success after expiry. -/
theorem c3_lockout_witness :
    ((verifyPin (failCalls (generatePin AuthState.init 0).1 wrongPin attackerIP 0 5)
        ((generatePin AuthState.init 0).2) attackerIP 0).2
      = .lockedRemaining (LOCKOUT_DURATION / 1000))
    ∧ (verifyPin ⟨some "100000", some (hashPin "100000"),
          [(attackerIP, ⟨5, some 300000⟩)]⟩ "100000" attackerIP 300000).2
        = .success :=
  ⟨c3_lockout.1 (generatePin AuthState.init 0).1 ((generatePin AuthState.init 0).2)
      wrongPin attackerIP 0 (by decide) (by decide) (by decide),
   c3_lockout.2.2 ⟨some "100000", some (hashPin "100000"),
        [(attackerIP, ⟨5, some 300000⟩)]⟩ "100000" attackerIP 300000 300000
      ⟨5, some 300000⟩ (by decide) (by decide) (by decide) (by decide)⟩

/-- C10 — once a lockout has expired, a single further failed attempt
(not five) immediately re-locks the address for a full new lockout
period: the stored consecutive-failure count was not reset on expiry, so
`attempts = count + 1` is already at the threshold. -/
theorem c10_relock_after_expiry :
    ∀ (st : AuthState) (w ip : String) (now lu : Nat) (t : TrackEntry),
      getKey st.tracker ip = some t → t.lockedUntil = some lu → lu ≤ now →
      MAX_ATTEMPTS - 1 ≤ t.count →
      some (hashPin w) ≠ st.pinHash →
      verifyPin st w ip now =
        ({ st with tracker :=
             setKey st.tracker ip ⟨t.count + 1, some (now + LOCKOUT_DURATION)⟩ },
         .lockedNow) := by
  intro st w ip now lu t htr hlu hexp hcnt hw
  have hlock : isLockedOut st ip now = false := by
    simp [isLockedOut, htr, hlu]
    omega
  rw [verifyPin_not_locked _ _ _ _ hlock, htr, verifyPinBody_wrong _ _ _ _ _ hw]
  have hge : t.count + 1 ≥ MAX_ATTEMPTS := by
    simp [MAX_ATTEMPTS] at hcnt ⊢
    omega
  simp [hge]

/-- C10 — witness: the address locked at 300000 ms, probed again with a
wrong PIN at 400000 ms, is instantly re-locked until 700000 ms. -/
theorem c10_relock_after_expiry_witness :
    verifyPin ⟨some "100000", some (hashPin "100000"),
        [(attackerIP, ⟨5, some 300000⟩)]⟩ wrongPin attackerIP 400000 =
      (⟨some "100000", some (hashPin "100000"),
        [(attackerIP, ⟨6, some 700000⟩)]⟩, .lockedNow) := by
  have h := c10_relock_after_expiry ⟨some "100000", some (hashPin "100000"),
      [(attackerIP, ⟨5, some 300000⟩)]⟩ wrongPin attackerIP 400000 300000
      ⟨5, some 300000⟩ (by decide) (by decide) (by decide) (by decide) (by decide)
  simpa using h

/-- C5 — session lifecycle: a token just created validates true; an entry
whose age exceeds the TTL validates false and is deleted on that lookup;
after `removeSession` the token validates false immediately and a second
`removeSession` returns false leaving the map unchanged (stated for maps
with no duplicate keys, which is what a JS `Map` is). -/
theorem c5_session_lifecycle :
    (∀ (m : Sessions) (tok ip : String) (now : Nat), tok ≠ "" →
       (validateSession (createSession m tok ip now).1 tok now).2 = true)
  ∧ (∀ (m : Sessions) (tok : String) (e : SessionEntry) (now : Nat), tok ≠ "" →
       getKey m tok = some e → now - e.createdAt > SESSION_DURATION →
       validateSession m tok now = (delKey m tok, false))
  ∧ (∀ (m : Sessions) (tok : String) (now : Nat), (m.map Prod.fst).Nodup →
       (validateSession (removeSession m tok).1 tok now).2 = false
       ∧ removeSession (removeSession m tok).1 tok = ((removeSession m tok).1, false)) := by
  refine ⟨?_, ?_, ?_⟩
  · intro m tok ip now htok
    simp [createSession, validateSession, htok, getKey_setKey_self]
  · intro m tok e now htok hget hexp
    simp [validateSession, htok, hget, hexp]
  · intro m tok now hnd
    have hdel : getKey (delKey m tok) tok = none := getKey_delKey_self m tok hnd
    refine ⟨?_, ?_⟩
    · by_cases htok : tok = ""
      · simp [removeSession, validateSession, htok]
      · simp [removeSession, validateSession, htok, hdel]
    · simp [removeSession, hasKey, hdel, delKey_of_getKey_none _ _ hdel]

/-! ### Claims about the WebSocket broker -/

theorem mem_addConn {l : List Conn} {c x : Conn} (h : x ∈ addConn l c) :
    x ∈ l ∨ x = c := by
  unfold addConn at h
  split at h
  · exact Or.inl h
  · simpa using h

theorem mem_addConn_self (l : List Conn) (c : Conn) : c ∈ addConn l c := by
  unfold addConn
  split
  · assumption
  · simp

/-- A connection in the viewer set after a step was there before, or the
step processed its `register-viewer`. -/
theorem step_viewers_mem (s : SrvState) (e : SEvent) (c : Conn)
    (h : c ∈ (serverStep s e).1.viewers) :
    c ∈ s.viewers ∨ e = .rawMsg c .registerViewer := by
  cases e with
  | incoming c' ip tok now =>
    left
    by_cases hl : isLocalIP ip
    · simpa [serverStep, hl] using h
    · cases tok with
      | none => simpa [serverStep, hl] using h
      | some t =>
        rcases hv : validateSession s.sessions t now with ⟨sess, ok⟩
        cases ok <;> simpa [serverStep, hl, hv] using h
  | rawMsg c' m =>
    by_cases hc : c' ∈ s.conns
    · cases m with
      | registerViewer =>
        rcases mem_addConn (by simpa [serverStep, hc, handleMessage] using h) with h1 | h1
        · exact Or.inl h1
        · subst h1; exact Or.inr rfl
      | registerHost => exact Or.inl (by simpa [serverStep, hc, handleMessage] using h)
      | offer sdp => exact Or.inl (by simpa [serverStep, hc, handleMessage] using h)
      | answer sdp vid => exact Or.inl (by simpa [serverStep, hc, handleMessage] using h)
      | iceCandidate cand vid =>
        left
        by_cases hh : s.host = some c' <;>
          simpa [serverStep, hc, handleMessage, hh] using h
      | control => exact Or.inl (by simpa [serverStep, hc, handleMessage] using h)
    · exact Or.inl (by simpa [serverStep, hc] using h)
  | close c' =>
    left
    by_cases hc : c' ∈ s.conns
    · by_cases hh : s.host = some c'
      · exact List.mem_of_mem_erase (by simpa [serverStep, hc, hh] using h)
      · by_cases hv : c' ∈ s.viewers
        · exact List.mem_of_mem_erase (by simpa [serverStep, hc, hh, hv] using h)
        · exact List.mem_of_mem_erase (by simpa [serverStep, hc, hh, hv] using h)
    · exact (by simpa [serverStep, hc] using h)

/-- A connection that is the host after a step was the host before, or the
step processed its `register-host`. -/
theorem step_host_some (s : SrvState) (e : SEvent) (h : Conn)
    (hh : (serverStep s e).1.host = some h) :
    s.host = some h ∨ e = .rawMsg h .registerHost := by
  cases e with
  | incoming c' ip tok now =>
    left
    by_cases hl : isLocalIP ip
    · simpa [serverStep, hl] using hh
    · cases tok with
      | none => simpa [serverStep, hl] using hh
      | some t =>
        rcases hv : validateSession s.sessions t now with ⟨sess, ok⟩
        cases ok <;> simpa [serverStep, hl, hv] using hh
  | rawMsg c' m =>
    by_cases hc : c' ∈ s.conns
    · cases m with
      | registerHost =>
        have h2 : some c' = some h := by simpa [serverStep, hc, handleMessage] using hh
        right
        rw [Option.some.inj h2]
      | registerViewer => exact Or.inl (by simpa [serverStep, hc, handleMessage] using hh)
      | offer sdp => exact Or.inl (by simpa [serverStep, hc, handleMessage] using hh)
      | answer sdp vid => exact Or.inl (by simpa [serverStep, hc, handleMessage] using hh)
      | iceCandidate cand vid =>
        left
        by_cases hho : s.host = some c' <;>
          simpa [serverStep, hc, handleMessage, hho] using hh
      | control => exact Or.inl (by simpa [serverStep, hc, handleMessage] using hh)
    · exact Or.inl (by simpa [serverStep, hc] using hh)
  | close c' =>
    left
    by_cases hc : c' ∈ s.conns
    · by_cases hho : s.host = some c'
      · simp [serverStep, hc, hho] at hh
      · by_cases hv : c' ∈ s.viewers <;>
          simpa [serverStep, hc, hho, hv] using hh
    · exact (by simpa [serverStep, hc] using hh)

/-- Over a whole run: a viewer must have sent `register-viewer`. -/
theorem runT_viewers_mem (t : List SEvent) : ∀ (s : SrvState) (c : Conn),
    c ∈ (runT s t).viewers → c ∈ s.viewers ∨ SEvent.rawMsg c .registerViewer ∈ t := by
  induction t with
  | nil => intro s c h; exact Or.inl h
  | cons e rest ih =>
    intro s c h
    simp only [runT] at h
    rcases ih (serverStep s e).1 c h with h1 | h1
    · rcases step_viewers_mem s e c h1 with h2 | h2
      · exact Or.inl h2
      · subst h2; exact Or.inr (List.mem_cons_self _ _)
    · exact Or.inr (List.mem_cons_of_mem _ h1)

/-- Over a whole run: the host must have sent `register-host`. -/
theorem runT_host_some (t : List SEvent) : ∀ (s : SrvState) (h : Conn),
    (runT s t).host = some h → s.host = some h ∨ SEvent.rawMsg h .registerHost ∈ t := by
  induction t with
  | nil => intro s h hh; exact Or.inl hh
  | cons e rest ih =>
    intro s h hh
    simp only [runT] at hh
    rcases ih (serverStep s e).1 h hh with h1 | h1
    · rcases step_host_some s e h h1 with h2 | h2
      · exact Or.inl h2
      · subst h2; exact Or.inr (List.mem_cons_self _ _)
    · exact Or.inr (List.mem_cons_of_mem _ h1)

/-- A loopback address used in concrete traces. -/
def localIP6 : String := "::1"

/-- An opaque ICE candidate payload used in concrete traces. -/
def candPayload : String := "candidate:0 1 UDP"

/-- Trace of the C1 scenario: host 1 registers, viewers 2 and 3 register
(receiving positional indices 0 and 1), then viewer 2 disconnects. -/
def c1Trace : List SEvent :=
  [.incoming 1 localIP6 none 0, .rawMsg 1 .registerHost,
   .incoming 2 localIP6 none 0, .rawMsg 2 .registerViewer,
   .incoming 3 localIP6 none 0, .rawMsg 3 .registerViewer,
   .close 2]

/-- C1 — the code violates the claim (a latent bug the spec's §9 flags):
after viewer 0 (connection 2) disconnects, connection 3 — registered as
viewer 1 — is still an open registered viewer, yet the host's
`ice-candidate` addressed to `viewerId 1` produces no send at all:
`getViewerById` recomputes indices from the live position in the viewer
set, so position 1 no longer exists and the candidate is silently dropped
instead of being delivered to the connection registered as viewer 1. -/
theorem c1_stale_index_candidate_dropped :
    (runT SrvState.init c1Trace).host = some 1
    ∧ (runT SrvState.init c1Trace).viewers = [3]
    ∧ 3 ∈ (runT SrvState.init c1Trace).conns
    ∧ serverStep (runT SrvState.init c1Trace) (.rawMsg 1 (.iceCandidate candPayload 1))
        = (runT SrvState.init c1Trace, []) := by
  decide

/-- Trace violating C4: one connection registers as viewer, then as host. -/
def c4Trace : List SEvent :=
  [.incoming 1 localIP6 none 0, .rawMsg 1 .registerViewer, .rawMsg 1 .registerHost]

/-- C4 — counterexample.  `register-host` does not remove the sender from
`viewerConnections`, so after a connection sends `register-viewer` and
then `register-host` it is simultaneously the recorded host and a member
of the viewer collection, refuting the claimed invariant (and its "in
particular" clause about same-connection registration sequences). -/
theorem c4_counterexample :
    (runT SrvState.init c4Trace).host = some 1
    ∧ 1 ∈ (runT SrvState.init c4Trace).viewers := by
  decide

/-- C4 — amended.  The invariant does hold for every event sequence in
which no single connection sends both `register-viewer` and
`register-host`: in any state reached from the initial state by such a
sequence, the recorded host is not in the viewer collection. -/
theorem c4_amended :
    ∀ (t : List SEvent),
      (∀ c, SEvent.rawMsg c .registerViewer ∈ t → SEvent.rawMsg c .registerHost ∉ t) →
      ∀ h, (runT SrvState.init t).host = some h → h ∉ (runT SrvState.init t).viewers := by
  intro t hdisj h hhost hmem
  rcases runT_host_some t SrvState.init h hhost with h1 | h1
  · simp [SrvState.init] at h1
  · rcases runT_viewers_mem t SrvState.init h hmem with h2 | h2
    · simp [SrvState.init] at h2
    · exact hdisj h h2 h1

/-- Trace for the C4 witness: distinct connections take distinct roles. -/
def c4WitnessTrace : List SEvent :=
  [.incoming 1 localIP6 none 0, .rawMsg 1 .registerHost,
   .incoming 2 localIP6 none 0, .rawMsg 2 .registerViewer]

/-- C4 — witness: the amended invariant at a concrete well-formed trace. -/
theorem c4_amended_witness :
    (runT SrvState.init c4WitnessTrace).host = some 1
    ∧ 1 ∉ (runT SrvState.init c4WitnessTrace).viewers :=
  ⟨by decide,
   c4_amended c4WitnessTrace
     (by
       intro c hc
       simp [c4WitnessTrace] at hc
       subst hc
       decide)
     1 (by decide)⟩

/-- C6 — processing `register-host` replaces the recorded host: the
sender becomes the host connection and the previously recorded (distinct)
host connection is no longer reachable as the host. -/
theorem c6_register_host_replaces :
    ∀ (s : SrvState) (c h0 : Conn), c ∈ s.conns → s.host = some h0 → h0 ≠ c →
      (serverStep s (.rawMsg c .registerHost)).1.host = some c
      ∧ (serverStep s (.rawMsg c .registerHost)).1.host ≠ some h0 := by
  intro s c h0 hc hh hne
  constructor
  · simp [serverStep, hc, handleMessage]
  · simp [serverStep, hc, handleMessage]
    exact hne.symm

/-- C6 — witness: host 1 is replaced by connection 2. -/
theorem c6_register_host_replaces_witness :
    ((serverStep (runT SrvState.init c4WitnessTrace) (.rawMsg 2 .registerHost)).1.host
        = some 2)
    ∧ (serverStep (runT SrvState.init c4WitnessTrace)
         (.rawMsg 2 .registerHost)).1.host ≠ some 1 :=
  c6_register_host_replaces (runT SrvState.init c4WitnessTrace) 2 1
    (by decide) (by decide) (by decide)

/-- C5 — witness at a concrete token and map. -/
theorem c5_session_lifecycle_witness :
    ((validateSession (createSession [] "tok" attackerIP 5).1 "tok" 5).2 = true)
    ∧ (validateSession [("tok", ⟨0, attackerIP⟩)] "tok" (SESSION_DURATION + 1)
        = ([], false))
    ∧ ((validateSession (removeSession [("tok", ⟨0, attackerIP⟩)] "tok").1
          "tok" 9).2 = false) :=
  ⟨c5_session_lifecycle.1 [] "tok" attackerIP 5 (by decide),
   by
     have h := c5_session_lifecycle.2.1 [("tok", ⟨0, attackerIP⟩)] "tok"
        ⟨0, attackerIP⟩ (SESSION_DURATION + 1) (by decide) (by decide) (by decide)
     simpa using h,
   (c5_session_lifecycle.2.2 [("tok", ⟨0, attackerIP⟩)] "tok" 9 (by decide)).1⟩

/-- C8 — the connection auth gate.  First conjunct: a remote connection
whose token is absent or rejected by `validateSession` is closed with the
distinct status `4001 'Unauthorized'` (not a normal close), and neither
the handled-socket set nor the host/viewer registrations change — no
message handler is installed for it.  Second conjunct: local-machine
connections are exempt and accepted regardless of the token.  Third
conjunct: a socket with no installed handler has its messages ignored, so
it can never be registered as host or viewer. -/
theorem c8_unauthorized_rejected :
    (∀ (s : SrvState) (c : Conn) (ip : String) (tok : Option String) (now : Nat),
       isLocalIP ip = false →
       (∀ t, tok = some t → (validateSession s.sessions t now).2 = false) →
       (serverStep s (.incoming c ip tok now)).2 = [.wsClose c 4001 "Unauthorized"]
       ∧ (serverStep s (.incoming c ip tok now)).1.conns = s.conns
       ∧ (serverStep s (.incoming c ip tok now)).1.host = s.host
       ∧ (serverStep s (.incoming c ip tok now)).1.viewers = s.viewers)
  ∧ (∀ (s : SrvState) (c : Conn) (ip : String) (tok : Option String) (now : Nat),
       isLocalIP ip = true →
       (serverStep s (.incoming c ip tok now)).2 = []
       ∧ c ∈ (serverStep s (.incoming c ip tok now)).1.conns)
  ∧ (∀ (s : SrvState) (c : Conn) (m : InMsg), c ∉ s.conns →
       serverStep s (.rawMsg c m) = (s, [])) := by
  refine ⟨?_, ?_, ?_⟩
  · intro s c ip tok now hl hvalid
    cases tok with
    | none => simp [serverStep, hl]
    | some t =>
      rcases hv : validateSession s.sessions t now with ⟨sess, ok⟩
      have hok : ok = false := by
        have := hvalid t rfl
        rw [hv] at this
        exact this
      subst hok
      simp [serverStep, hl, hv]
  · intro s c ip tok now hl
    exact ⟨by simp [serverStep, hl], by simp [serverStep, hl, mem_addConn_self]⟩
  · intro s c m hc
    simp [serverStep, hc]

/-- C8 — witness: a remote probe without a token is closed with 4001; a
loopback connection is accepted; the rejected socket's `register-host`
is ignored. -/
theorem c8_unauthorized_rejected_witness :
    ((serverStep SrvState.init (.incoming 7 attackerIP none 0)).2
        = [.wsClose 7 4001 "Unauthorized"])
    ∧ ((serverStep SrvState.init (.incoming 8 localIP6 none 0)).2 = [])
    ∧ serverStep SrvState.init (.rawMsg 7 .registerHost) = (SrvState.init, []) :=
  ⟨(c8_unauthorized_rejected.1 SrvState.init 7 attackerIP none 0 (by decide)
      (fun t ht => by cases ht)).1,
   (c8_unauthorized_rejected.2.1 SrvState.init 8 localIP6 none 0 (by decide)).1,
   c8_unauthorized_rejected.2.2 SrvState.init 7 .registerHost (by decide)⟩

/-- Number of `host-ready` notifications delivered to `v` in a step's
output list. -/
def countHostReady (v : Conn) (outs : List Out) : Nat :=
  outs.count (.send v .hostReady)

theorem count_send_map (l : List Conn) (v : Conn) (m : OutMsg) :
    (l.map (fun w => Out.send w m)).count (.send v m) = l.count v := by
  induction l with
  | nil => rfl
  | cons a l ih => simp [List.count_cons, ih]

/-- C9 — a viewer registering while no host is present is acknowledged
with exactly `registered { role: viewer, hostReady: false }` and nothing
else (first conjunct); processing `register-host` delivers `host-ready`
to each registered open viewer exactly once (second conjunct); and no
other event ever emits a `host-ready` to anyone (third conjunct) — so
along a trace in which one host registers after the viewer, the viewer
receives the notification exactly once, at that moment. -/
theorem c9_host_ready_once :
    (∀ (s : SrvState) (v : Conn), v ∈ s.conns → s.host = none →
       (serverStep s (.rawMsg v .registerViewer)).2 =
         [.send v (.registered ("viewer") (some false))])
  ∧ (∀ (s : SrvState) (h v : Conn), h ∈ s.conns → s.viewers.Nodup →
       v ∈ s.viewers → v ∈ s.conns →
       countHostReady v (serverStep s (.rawMsg h .registerHost)).2 = 1)
  ∧ (∀ (s : SrvState) (e : SEvent) (v : Conn),
       (∀ c, e ≠ .rawMsg c .registerHost) →
       countHostReady v (serverStep s e).2 = 0) := by
  refine ⟨?_, ?_, ?_⟩
  · intro s v hc hh
    simp [serverStep, hc, handleMessage, hh]
  · intro s h v hc hnd hv hvc
    have hbr : countHostReady v (broadcastMsg s.viewers s.conns .hostReady) = 1 := by
      unfold countHostReady broadcastMsg
      rw [count_send_map]
      exact List.count_eq_one_of_mem (hnd.filter _)
        (List.mem_filter.mpr ⟨hv, by simpa using hvc⟩)
    unfold countHostReady at hbr ⊢
    simp [serverStep, hc, handleMessage, List.count_cons, hbr]
  · intro s e v hne
    cases e with
    | incoming c ip tok now =>
      by_cases hl : isLocalIP ip
      · simp [serverStep, hl, countHostReady]
      · cases tok with
        | none => simp [serverStep, hl, countHostReady]
        | some t =>
          rcases hv : validateSession s.sessions t now with ⟨sess, ok⟩
          cases ok <;> simp [serverStep, hl, hv, countHostReady]
    | rawMsg c m =>
      by_cases hc : c ∈ s.conns
      · cases m with
        | registerHost => exact absurd rfl (hne c)
        | registerViewer =>
          cases hh : s.host <;>
            simp [serverStep, hc, handleMessage, hh, countHostReady, List.count_cons]
        | offer sdp =>
          cases hh : s.host <;>
            simp [serverStep, hc, handleMessage, hh, countHostReady, List.count_cons]
        | answer sdp vid =>
          cases hvw : getViewerById s.viewers vid <;>
            simp [serverStep, hc, handleMessage, hvw, countHostReady, List.count_cons]
        | iceCandidate cand vid =>
          by_cases hh : s.host = some c
          · cases hvw : getViewerById s.viewers vid <;>
              simp [serverStep, hc, handleMessage, hh, hvw, countHostReady,
                List.count_cons]
          · cases hho : s.host with
            | none => simp [serverStep, hc, handleMessage, hh, hho, countHostReady]
            | some h0 =>
              have hne0 : h0 ≠ c := fun heq => hh (by rw [hho, heq])
              simp [serverStep, hc, handleMessage, hh, hho, hne0, countHostReady,
                List.count_cons]
        | control => simp [serverStep, hc, handleMessage, countHostReady]
      · simp [serverStep, hc, countHostReady]
    | close c =>
      by_cases hc : c ∈ s.conns
      · by_cases hh : s.host = some c
        · have hbr : countHostReady v
              (broadcastMsg s.viewers (s.conns.erase c) .hostDisconnected) = 0 := by
            unfold countHostReady
            rw [List.count_eq_zero]
            intro hmem
            simp [broadcastMsg] at hmem
          unfold countHostReady at hbr ⊢
          simp [serverStep, hc, hh]
          exact hbr
        · by_cases hv : c ∈ s.viewers
          · cases hho : s.host with
            | none => simp [serverStep, hc, hh, hv, hho, countHostReady]
            | some h0 =>
              have hne0 : h0 ≠ c := fun heq => hh (by rw [hho, heq])
              simp [serverStep, hc, hh, hv, hho, hne0, countHostReady,
                List.count_cons]
          · simp [serverStep, hc, hh, hv, countHostReady]
      · simp [serverStep, hc, countHostReady]

/-- C9 — witness: in the concrete pre-host state, viewer 2's registration
is acknowledged with `hostReady: false`; when host 1 then registers,
viewer 2 receives `host-ready` exactly once; a later `offer` emits none. -/
theorem c9_host_ready_once_witness :
    ((serverStep (runT SrvState.init [.incoming 2 localIP6 none 0])
        (.rawMsg 2 .registerViewer)).2
      = [.send 2 (.registered ("viewer") (some false))])
    ∧ countHostReady 2 (serverStep
        (runT SrvState.init [.incoming 2 localIP6 none 0, .rawMsg 2 .registerViewer,
          .incoming 1 localIP6 none 0])
        (.rawMsg 1 .registerHost)).2 = 1
    ∧ countHostReady 2 (serverStep
        (runT SrvState.init [.incoming 2 localIP6 none 0, .rawMsg 2 .registerViewer,
          .incoming 1 localIP6 none 0])
        (.rawMsg 2 (.offer candPayload))).2 = 0 :=
  ⟨c9_host_ready_once.1 (runT SrvState.init [.incoming 2 localIP6 none 0]) 2
      (by decide) (by decide),
   c9_host_ready_once.2.1
      (runT SrvState.init [.incoming 2 localIP6 none 0, .rawMsg 2 .registerViewer,
        .incoming 1 localIP6 none 0]) 1 2
      (by decide) (by decide) (by decide) (by decide),
   c9_host_ready_once.2.2
      (runT SrvState.init [.incoming 2 localIP6 none 0, .rawMsg 2 .registerViewer,
        .incoming 1 localIP6 none 0]) (.rawMsg 2 (.offer candPayload)) 2
      (by intro c; simp)⟩

/-! ### Claim about `src/screenshare.js` frame streaming -/

theorem addConn_ne_nil (l : List Conn) (c : Conn) : addConn l c ≠ [] := by
  unfold addConn
  split
  · intro hnil
    subst hnil
    simp_all
  · simp

theorem tickStep_clients (s : StreamState) : (tickStep s).clients = s.clients := by
  unfold tickStep
  split <;> rfl

theorem tickStep_isStreaming (s : StreamState) :
    (tickStep s).isStreaming = s.isStreaming := by
  unfold tickStep
  split <;> rfl

theorem ssStep_connect_clients (s : StreamState) (c : Conn) :
    (ssStep s (.connect c)).clients = addConn s.clients c := by
  by_cases hstr : s.isStreaming <;> simp [ssStep, hstr, tickStep_clients]

theorem ssStep_connect_isStreaming (s : StreamState) (c : Conn) :
    (ssStep s (.connect c)).isStreaming = true := by
  by_cases hstr : s.isStreaming <;>
    simp [ssStep, hstr, tickStep_isStreaming]

/-- C7 — streaming lifecycle.  First conjunct: on any event sequence with
no client connection the streamer stays exactly in its initial state —
`Idle`, no clients, and the capture collaborator never invoked.  Second
conjunct: in every reachable state, no connected client implies `Idle`.
Third conjunct: the first client connecting switches the streamer to
`Streaming`.  Fourth conjunct: the last client disconnecting switches it
back to `Idle`. -/
theorem c7_stream_lifecycle :
    (∀ (t : List SSEvent), (∀ c, SSEvent.connect c ∉ t) →
       runSS StreamState.init t = StreamState.init)
  ∧ (∀ (t : List SSEvent), (runSS StreamState.init t).clients = [] →
       (runSS StreamState.init t).isStreaming = false)
  ∧ (∀ (s : StreamState) (c : Conn), s.clients = [] →
       (ssStep s (.connect c)).isStreaming = true)
  ∧ (∀ (s : StreamState) (c : Conn), s.clients = [c] →
       (ssStep s (.close c)).isStreaming = false) := by
  refine ⟨?_, ?_, ?_, ?_⟩
  · intro t
    induction t with
    | nil => intro _; rfl
    | cons e rest ih =>
      intro hno
      have hstep : ssStep StreamState.init e = StreamState.init := by
        cases e with
        | connect c => exact absurd (List.mem_cons_self _ _) (hno c)
        | close c => simp [ssStep, StreamState.init]
        | tick => simp [ssStep, tickStep, StreamState.init]
      show runSS (ssStep StreamState.init e) rest = StreamState.init
      rw [hstep]
      exact ih (fun c hc => hno c (List.mem_cons_of_mem _ hc))
  · have inv : ∀ (t : List SSEvent) (s : StreamState),
        (s.clients = [] → s.isStreaming = false) →
        ((runSS s t).clients = [] → (runSS s t).isStreaming = false) := by
      intro t
      induction t with
      | nil => intro s hs; exact hs
      | cons e rest ih =>
        intro s hs
        refine ih (ssStep s e) ?_
        cases e with
        | connect c =>
          intro hnil
          rw [ssStep_connect_clients] at hnil
          exact absurd hnil (addConn_ne_nil s.clients c)
        | close c =>
          intro hnil
          by_cases h0 : s.clients.erase c = []
          · simp [ssStep, h0]
          · exfalso
            apply h0
            simp only [ssStep] at hnil
            rwa [if_neg h0] at hnil
        | tick =>
          intro hnil
          have h1 : (ssStep s .tick) = tickStep s := rfl
          rw [h1, tickStep_clients] at hnil
          rw [h1, tickStep_isStreaming]
          exact hs hnil
    intro t
    exact inv t StreamState.init (fun _ => rfl)
  · intro s c hs
    exact ssStep_connect_isStreaming s c
  · intro s c hs
    simp [ssStep, hs]

/-- C7 — witness: an idle-only trace stays initial; a reachable empty
state is idle; connecting client 4 starts streaming; client 4 closing
again stops it. -/
theorem c7_stream_lifecycle_witness :
    (runSS StreamState.init [.tick, .close 9, .tick] = StreamState.init)
    ∧ (runSS StreamState.init [.connect 4, .close 4]).isStreaming = false
    ∧ (ssStep StreamState.init (.connect 4)).isStreaming = true
    ∧ (ssStep (runSS StreamState.init [.connect 4]) (.close 4)).isStreaming = false :=
  ⟨c7_stream_lifecycle.1 [.tick, .close 9, .tick]
      (by intro c; simp),
   c7_stream_lifecycle.2.1 [.connect 4, .close 4] (by decide),
   c7_stream_lifecycle.2.2.1 StreamState.init 4 (by decide),
   c7_stream_lifecycle.2.2.2 (runSS StreamState.init [.connect 4]) 4 (by decide)⟩

end RemoteDesktop
